import Mathlib

/-!
Shallow embedding of the Structured-Response Normalization Pipeline of
`src/services/ai-ml/app/services/gemini_service.py`.

Python strings are modelled as `List Char`; `json.loads` is modelled as an
abstract parameter `json_loads : Str → ParseOutcome` (it is a library call,
external to the repository); Python dicts are association lists with
Python's assignment semantics (update in place, append when new).
-/

/-- Python `str` is modelled as a list of characters. -/
abbrev Str := List Char

/-- Convert a Lean string literal to the `Str` model. -/
def lit (s : String) : Str := s.toList

/-- The whitespace set of Python `str.strip()`:
space, tab, newline, carriage return, vertical tab, form feed. -/
def isPyWS (c : Char) : Bool :=
  c == ' ' || c == '\t' || c == '\n' || c == '\r' || c == '\x0b' || c == '\x0c'

/-- Python `s.strip()`: remove leading and trailing whitespace. -/
def pyStrip (xs : Str) : Str :=
  ((xs.dropWhile isPyWS).reverse.dropWhile isPyWS).reverse

/-- Python `s.startswith(p)` on the list model (first argument the candidate
leading segment). -/
def leadsWith : Str → Str → Bool
  | [], _ => true
  | _ :: _, [] => false
  | p :: ps, x :: xs => p == x && leadsWith ps xs

/-- Python `s.endswith(t)` on the list model. -/
def trailsWith (suffix xs : Str) : Bool :=
  leadsWith suffix.reverse xs.reverse

/-- The response-extraction step shared by all three operations:
`clean_response = response_text.strip()`;
drop a leading 7-character marker if `clean_response.startswith('```json')`;
drop the last 3 characters if `clean_response.endswith('```')`;
the result is then stripped again before `json.loads(clean_response.strip())`. -/
def cleanResponse (response_text : Str) : Str :=
  let c := pyStrip response_text
  let c := if leadsWith (lit "```json") c then c.drop 7 else c
  let c := if trailsWith (lit "```") c then c.take (c.length - 3) else c
  pyStrip c

/-- JSON values, the possible results of `json.loads`. -/
inductive JVal where
  | jnull
  | jbool (b : Bool)
  | jnum (q : ℚ)
  | jstr (s : Str)
  | jarr (elems : List JVal)
  | jobj (fields : List (Str × JVal))

/-- A Python dict (as produced by `json.loads` and manipulated by the
pipeline) is an association list of string keys and JSON values. -/
abbrev Obj := List (Str × JVal)

/-- Python `key in d` for dicts. -/
def dmem : Obj → Str → Bool
  | [], _ => false
  | (k, _) :: rest, key => k == key || dmem rest key

/-- Python `d[key]` lookup (as an `Option`). -/
def dget : Obj → Str → Option JVal
  | [], _ => none
  | (k, v) :: rest, key => if k == key then some v else dget rest key

/-- Python `d[key] = v` assignment: update in place if present, append if new. -/
def dset : Obj → Str → JVal → Obj
  | [], key, v => [(key, v)]
  | (k, w) :: rest, key, v =>
      if k == key then (k, v) :: rest else (k, w) :: dset rest key v

/-- Outcome of the `json.loads` library call: a `json.JSONDecodeError`, or a
parsed JSON value. -/
inductive ParseOutcome where
  | perr
  | pok (v : JVal)

/-- The `if not response_text` unavailability dict of `process_business_query`. -/
def pbqUnavailable : Obj :=
  [(lit "interpretation", JVal.jstr (lit "Failed to process query")),
   (lit "confidence", JVal.jnum 0),
   (lit "error", JVal.jstr (lit "Gemini service unavailable"))]

/-- One iteration of the required-fields loop of `process_business_query`:
`if field not in parsed_response: parsed_response[field] = dflt`. -/
def injectDefault (parsed_response : Obj) (field : Str) (dflt : JVal) : Obj :=
  if dmem parsed_response field then parsed_response
  else dset parsed_response field dflt

/-- The required-fields loop of `process_business_query`:
`for field in ['interpretation', 'confidence']:`
`  if field not in parsed_response:`
`    parsed_response[field] = "Not provided" if field == 'interpretation' else 0.5`. -/
def validateRequired (parsed_response : Obj) : Obj :=
  injectDefault
    (injectDefault parsed_response (lit "interpretation") (JVal.jstr (lit "Not provided")))
    (lit "confidence") (JVal.jnum (1/2))

/-- Model of `GeminiService.process_business_query`.
`json_loads` abstracts the `json.loads` library call; `response_text` is the
reply of `_generate_content` (`none` models Python `None`, and the empty
string is falsy like `None` under `if not response_text`); `now` models
`asyncio.get_event_loop().time()`; `type_error_msg` models `str(e)` for the
`TypeError` raised when the parsed value is not a dict and the required-field
check/assignment is attempted on it (caught by the outer `except Exception`). -/
def process_business_query (json_loads : Str → ParseOutcome)
    (query organization_id type_error_msg : Str) (now : ℚ)
    (response_text : Option Str) : Obj :=
  match response_text with
  | none => pbqUnavailable
  | some txt =>
      if txt.isEmpty then pbqUnavailable
      else
        match json_loads (cleanResponse txt) with
        | ParseOutcome.pok (JVal.jobj parsed) =>
            dset (dset (dset (validateRequired parsed)
                (lit "original_query") (JVal.jstr query))
                (lit "organization_id") (JVal.jstr organization_id))
              (lit "processed_at") (JVal.jnum now)
        | ParseOutcome.pok _ =>
            [(lit "interpretation",
                JVal.jstr (lit "Error processing query: " ++ type_error_msg)),
             (lit "confidence", JVal.jnum 0),
             (lit "error", JVal.jstr type_error_msg)]
        | ParseOutcome.perr =>
            [(lit "interpretation",
                JVal.jstr (if txt.length > 500 then txt.take 500 ++ lit "..." else txt)),
             (lit "insights",
                JVal.jarr [JVal.jstr (if txt.length > 200 then txt.drop (txt.length - 200) else txt)]),
             (lit "confidence", JVal.jnum (7/10)),
             (lit "query_type", JVal.jstr (lit "general")),
             (lit "original_query", JVal.jstr query),
             (lit "organization_id", JVal.jstr organization_id),
             (lit "note", JVal.jstr (lit "Response was not in JSON format, providing text fallback"))]

/-- Model of `GeminiService.generate_business_insights`.  `data_summary` and
`organization_id` appear only in the prompt (if at all) and never in the
result; the success path returns `json.loads(...)` directly, whatever JSON
value it is. -/
def generate_business_insights (json_loads : Str → ParseOutcome)
    (data_summary : Obj) (organization_id : Str)
    (response_text : Option Str) : JVal :=
  match response_text with
  | none => JVal.jobj [(lit "error", JVal.jstr (lit "Failed to generate insights"))]
  | some txt =>
      if txt.isEmpty then
        JVal.jobj [(lit "error", JVal.jstr (lit "Failed to generate insights"))]
      else
        match json_loads (cleanResponse txt) with
        | ParseOutcome.pok v => v
        | ParseOutcome.perr =>
            JVal.jobj
              [(lit "key_insights", JVal.jarr [JVal.jstr txt]),
               (lit "confidence", JVal.jnum (7/10)),
               (lit "note", JVal.jstr (lit "Fallback text response"))]

/-- Model of `GeminiService.optimize_query_performance`.  The success path
returns `json.loads(...)` directly; the `JSONDecodeError` fallback echoes the
input SQL and wraps the whole raw reply as the single suggestion, with
confidence `0.5`. -/
def optimize_query_performance (json_loads : Str → ParseOutcome)
    (sql_query : Str) (response_text : Option Str) : JVal :=
  match response_text with
  | none => JVal.jobj [(lit "error", JVal.jstr (lit "Failed to optimize query"))]
  | some txt =>
      if txt.isEmpty then
        JVal.jobj [(lit "error", JVal.jstr (lit "Failed to optimize query"))]
      else
        match json_loads (cleanResponse txt) with
        | ParseOutcome.pok v => v
        | ParseOutcome.perr =>
            JVal.jobj
              [(lit "optimized_query", JVal.jstr sql_query),
               (lit "suggestions", JVal.jarr [JVal.jstr txt]),
               (lit "confidence", JVal.jnum (1/2))]

/-- Python `key in v` where `v` may be any JSON value: field membership on
objects. -/
def jmem (v : JVal) (key : Str) : Bool :=
  match v with
  | JVal.jobj fields => dmem fields key
  | _ => false

/-- Field lookup on an arbitrary JSON value. -/
def jget (v : JVal) (key : Str) : Option JVal :=
  match v with
  | JVal.jobj fields => dget fields key
  | _ => none

/-! ### Dictionary lemmas -/

theorem dget_dset_self (fields : Obj) (key : Str) (v : JVal) :
    dget (dset fields key v) key = some v := by
  induction fields with
  | nil => simp [dset, dget]
  | cons hd tl ih =>
      by_cases h : hd.1 == key
      · cases hd; simp_all [dset, dget]
      · cases hd; simp_all [dset, dget]

theorem dget_dset_ne (fields : Obj) (key other : Str) (v : JVal)
    (h : other ≠ key) : dget (dset fields key v) other = dget fields other := by
  induction fields with
  | nil => simp [dset, dget, Ne.symm h]
  | cons hd tl ih =>
      cases hd with
      | mk k w =>
          by_cases hk : k = key
          · subst hk
            simp [dset, dget, Ne.symm h]
          · by_cases ho : k = other
            · subst ho
              simp [dset, dget, hk]
            · simp [dset, dget, hk, ho, ih]

theorem dmem_dset (fields : Obj) (key other : Str) (v : JVal) :
    dmem (dset fields key v) other = ((key == other) || dmem fields other) := by
  induction fields with
  | nil => simp [dset, dmem]
  | cons hd tl ih =>
      cases hd with
      | mk k w =>
          by_cases hk : k = key
          · subst hk
            by_cases ho : k = other <;> simp [dset, dmem, ho]
          · have hkb : (k == key) = false := by simpa using hk
            simp only [dset, hkb, Bool.false_eq_true, if_false, dmem, ih]
            exact Bool.or_left_comm _ _ _

theorem dmem_dget_isSome (fields : Obj) (key : Str) (h : dmem fields key = true) :
    ∃ v, dget fields key = some v := by
  induction fields with
  | nil => simp [dmem] at h
  | cons hd tl ih =>
      cases hd with
      | mk k w =>
          by_cases hk : k = key
          · subst hk
            refine ⟨w, ?_⟩
            simp [dget]
          · have h' : dmem tl key = true := by simpa [dmem, hk] using h
            obtain ⟨v, hv⟩ := ih h'
            refine ⟨v, ?_⟩
            simp [dget, hk, hv]

/-! ### Properties of the validator step of `process_business_query` -/

theorem dmem_injectDefault_self (parsed : Obj) (field : Str) (dflt : JVal) :
    dmem (injectDefault parsed field dflt) field = true := by
  unfold injectDefault
  cases h : dmem parsed field with
  | true => simp [h]
  | false => simp [h, dmem_dset]

theorem dmem_injectDefault_mono (parsed : Obj) (field key : Str) (dflt : JVal)
    (h : dmem parsed key = true) :
    dmem (injectDefault parsed field dflt) key = true := by
  unfold injectDefault
  cases hf : dmem parsed field <;> simp [hf, dmem_dset, h]

theorem dmem_injectDefault_other (parsed : Obj) (field key : Str) (dflt : JVal)
    (hk : key ≠ field) (h : dmem parsed key = false) :
    dmem (injectDefault parsed field dflt) key = false := by
  unfold injectDefault
  cases hf : dmem parsed field with
  | true => simp [hf, h]
  | false =>
      have hfk : (field == key) = false := by
        simpa using fun he : field = key => hk he.symm
      simp [hf, dmem_dset, hfk, h]

theorem dget_injectDefault_present (parsed : Obj) (field key : Str) (dflt : JVal)
    (h : dmem parsed key = true) :
    dget (injectDefault parsed field dflt) key = dget parsed key := by
  unfold injectDefault
  cases hf : dmem parsed field with
  | true => simp [hf]
  | false =>
      have hk : key ≠ field := by
        intro he; rw [he, hf] at h; cases h
      simp [hf, dget_dset_ne _ _ _ _ hk]

theorem dget_injectDefault_absent (parsed : Obj) (field : Str) (dflt : JVal)
    (h : dmem parsed field = false) :
    dget (injectDefault parsed field dflt) field = some dflt := by
  unfold injectDefault
  simp [h, dget_dset_self]

theorem validateRequired_present (parsed : Obj) (key : Str)
    (h : dmem parsed key = true) :
    dget (validateRequired parsed) key = dget parsed key := by
  unfold validateRequired
  rw [dget_injectDefault_present _ _ _ _ (dmem_injectDefault_mono _ _ _ _ h),
    dget_injectDefault_present _ _ _ _ h]

theorem validateRequired_mem_confidence (parsed : Obj) :
    dmem (validateRequired parsed) (lit "confidence") = true :=
  dmem_injectDefault_self _ _ _

theorem validateRequired_mem_interpretation (parsed : Obj) :
    dmem (validateRequired parsed) (lit "interpretation") = true :=
  dmem_injectDefault_mono _ _ _ _ (dmem_injectDefault_self _ _ _)

theorem validateRequired_inject_interpretation (parsed : Obj)
    (h : dmem parsed (lit "interpretation") = false) :
    dget (validateRequired parsed) (lit "interpretation")
      = some (JVal.jstr (lit "Not provided")) := by
  unfold validateRequired
  rw [dget_injectDefault_present _ _ _ _ (dmem_injectDefault_self _ _ _)]
  exact dget_injectDefault_absent _ _ _ h

theorem validateRequired_inject_confidence (parsed : Obj)
    (h : dmem parsed (lit "confidence") = false) :
    dget (validateRequired parsed) (lit "confidence") = some (JVal.jnum (1/2)) := by
  unfold validateRequired
  exact dget_injectDefault_absent _ _ _
    (dmem_injectDefault_other _ _ _ _ (by decide) h)

/-! ### Properties of the extraction step -/

theorem leadsWith_append (p xs : Str) : leadsWith p (p ++ xs) = true := by
  induction p with
  | nil => rfl
  | cons a l ih => simp [leadsWith, ih]

/-- The backtick character, code point 96. -/
def btChar : Char := Char.ofNat 96

theorem dropWhile_isPyWS_bt (xs : Str) (h : xs.head? = some btChar) :
    List.dropWhile isPyWS xs = xs := by
  cases xs with
  | nil => cases h
  | cons a l =>
      simp only [List.head?_cons, Option.some.injEq] at h
      subst h
      have hbt : isPyWS btChar = false := by decide
      simp [List.dropWhile_cons, hbt]

theorem pyStrip_bt_ends (xs : Str) (h1 : xs.head? = some btChar)
    (h2 : xs.reverse.head? = some btChar) : pyStrip xs = xs := by
  unfold pyStrip
  rw [dropWhile_isPyWS_bt xs h1, dropWhile_isPyWS_bt xs.reverse h2, List.reverse_reverse]

theorem cleanResponse_fenced (inner : Str) :
    cleanResponse (lit "```json" ++ (inner ++ lit "```")) = pyStrip inner := by
  have h1 : (lit "```json" ++ (inner ++ lit "```")).head? = some btChar := rfl
  have h2 : (lit "```json" ++ (inner ++ lit "```")).reverse.head? = some btChar := by
    rw [List.reverse_append, List.reverse_append, List.append_assoc]
    rfl
  have hstrip := pyStrip_bt_ends _ h1 h2
  have hlead : leadsWith (lit "```json") (lit "```json" ++ (inner ++ lit "```")) = true :=
    leadsWith_append _ _
  have hdrop : List.drop 7 (lit "```json" ++ (inner ++ lit "```")) = inner ++ lit "```" := by
    rw [show (7 : Nat) = (lit "```json").length from rfl, List.drop_left]
  have htrail : trailsWith (lit "```") (inner ++ lit "```") = true := by
    unfold trailsWith
    rw [List.reverse_append]
    exact leadsWith_append _ _
  have hlen : (inner ++ lit "```").length - 3 = inner.length := by
    simp [List.length_append, lit]
  have htake : List.take inner.length (inner ++ lit "```") = inner := List.take_left _ _
  simp only [cleanResponse, hstrip, hlead, if_true, hdrop, htrail, hlen, htake]

theorem cleanResponse_noFence (xs : Str) (hs : pyStrip xs = xs)
    (h1 : leadsWith (lit "```json") xs = false)
    (h2 : trailsWith (lit "```") xs = false) : cleanResponse xs = xs := by
  simp only [cleanResponse, hs, h1, h2, Bool.false_eq_true, if_false]

/-! ### Claim C1 -/

/-- Claim C1, counterexample: with the backend unavailable (no text),
`generate_business_insights` returns an object that has an `error` field but
no `confidence` field at all — so the output does not contain
`confidence = 0.0` as the claim states for every use case. -/
theorem C1_counterexample :
    jmem (generate_business_insights (fun _ => ParseOutcome.perr) [] (lit "org-1") none)
        (lit "confidence") = false
    ∧ jmem (generate_business_insights (fun _ => ParseOutcome.perr) [] (lit "org-1") none)
        (lit "error") = true := ⟨rfl, rfl⟩

/-- Claim C1 as amended: when the backend returns no text, all three pipeline
operations return an object containing an `error` field; `confidence = 0.0`
additionally holds for `process_business_query`, while
`generate_business_insights` and `optimize_query_performance` return only the
`error` field, with no `confidence` field. -/
theorem C1_amended : ∀ (json_loads : Str → ParseOutcome) (q org emsg sql : Str)
    (ds : Obj) (now : ℚ),
    dget (process_business_query json_loads q org emsg now none) (lit "confidence")
        = some (JVal.jnum 0)
    ∧ dmem (process_business_query json_loads q org emsg now none) (lit "error") = true
    ∧ jget (generate_business_insights json_loads ds org none) (lit "error")
        = some (JVal.jstr (lit "Failed to generate insights"))
    ∧ jmem (generate_business_insights json_loads ds org none) (lit "confidence") = false
    ∧ jget (optimize_query_performance json_loads sql none) (lit "error")
        = some (JVal.jstr (lit "Failed to optimize query"))
    ∧ jmem (optimize_query_performance json_loads sql none) (lit "confidence") = false := by
  intro jl q org emsg sql ds now
  exact ⟨rfl, rfl, rfl, rfl, rfl, rfl⟩

/-! ### Claim C2 -/

/-- Claim C2, counterexample: with the backend unavailable,
`optimize_query_performance` returns an object with no `confidence` field, so
the invariant "every returned object contains a confidence field" fails. -/
theorem C2_counterexample :
    jmem (optimize_query_performance (fun _ => ParseOutcome.perr) (lit "SELECT 1") none)
        (lit "confidence") = false := rfl

/-- Claim C2 as amended: the invariant holds for `process_business_query`
only — on every input and every backend reply, its returned object contains a
`confidence` field and either an `interpretation` field or an `error` field.
(For the other two operations the unavailable path lacks `confidence`, and
the success path returns the parsed reply as-is with no field guarantees.) -/
theorem C2_amended : ∀ (json_loads : Str → ParseOutcome) (q org emsg : Str) (now : ℚ)
    (r : Option Str),
    dmem (process_business_query json_loads q org emsg now r) (lit "confidence") = true
    ∧ (dmem (process_business_query json_loads q org emsg now r) (lit "interpretation") = true
       ∨ dmem (process_business_query json_loads q org emsg now r) (lit "error") = true) := by
  intro jl q org emsg now r
  cases r with
  | none => exact ⟨rfl, Or.inl rfl⟩
  | some txt =>
      cases he : txt.isEmpty with
      | true =>
          simp only [process_business_query, he, if_true]
          exact ⟨rfl, Or.inl rfl⟩
      | false =>
          simp only [process_business_query, he, Bool.false_eq_true, if_false]
          cases hp : jl (cleanResponse txt) with
          | perr =>
              exact ⟨rfl, Or.inl rfl⟩
          | pok v =>
              cases v with
              | jobj parsed =>
                  constructor
                  · simp [dmem_dset, validateRequired_mem_confidence]
                  · left
                    simp [dmem_dset, validateRequired_mem_interpretation]
              | jnull => exact ⟨rfl, Or.inl rfl⟩
              | jbool b => exact ⟨rfl, Or.inl rfl⟩
              | jnum q2 => exact ⟨rfl, Or.inl rfl⟩
              | jstr s => exact ⟨rfl, Or.inl rfl⟩
              | jarr es => exact ⟨rfl, Or.inl rfl⟩

/-! ### Claim C3 -/

/-- Claim C3, counterexample: a backend reply whose extracted text parses to
a JSON list (not a mapping) does not reach the 0.7 fallback — the
required-field check raises a `TypeError` on the non-dict value, the outer
handler catches it, and `process_business_query` returns the 0.0 error
object.  Here `json.loads` on the extracted text `[1, 2]` is modelled by the
parser returning that list. -/
theorem C3_counterexample :
    dget (process_business_query
        (fun _ => ParseOutcome.pok (JVal.jarr [JVal.jnum 1, JVal.jnum 2]))
        (lit "q") (lit "org") (lit "argument of type int is not iterable") 0
        (some (lit "[1, 2]"))) (lit "confidence") = some (JVal.jnum 0)
    ∧ dmem (process_business_query
        (fun _ => ParseOutcome.pok (JVal.jarr [JVal.jnum 1, JVal.jnum 2]))
        (lit "q") (lit "org") (lit "argument of type int is not iterable") 0
        (some (lit "[1, 2]"))) (lit "error") = true := ⟨rfl, rfl⟩

/-- Claim C3 as amended: when the extracted text fails strict JSON parsing,
`process_business_query` returns the deterministic fallback synthesized from
the raw reply text with confidence 0.7; but when the extracted text parses to
a value that is not a mapping, the operation instead raises internally and
returns the 0.0 error object. -/
theorem C3_amended : ∀ (json_loads : Str → ParseOutcome) (q org emsg : Str) (now : ℚ)
    (txt : Str), txt.isEmpty = false →
    (json_loads (cleanResponse txt) = ParseOutcome.perr →
      process_business_query json_loads q org emsg now (some txt) =
        [(lit "interpretation",
            JVal.jstr (if txt.length > 500 then txt.take 500 ++ lit "..." else txt)),
         (lit "insights",
            JVal.jarr [JVal.jstr (if txt.length > 200 then txt.drop (txt.length - 200) else txt)]),
         (lit "confidence", JVal.jnum (7/10)),
         (lit "query_type", JVal.jstr (lit "general")),
         (lit "original_query", JVal.jstr q),
         (lit "organization_id", JVal.jstr org),
         (lit "note", JVal.jstr (lit "Response was not in JSON format, providing text fallback"))])
    ∧ (∀ v, json_loads (cleanResponse txt) = ParseOutcome.pok v →
        (∀ fields, v ≠ JVal.jobj fields) →
        process_business_query json_loads q org emsg now (some txt) =
          [(lit "interpretation", JVal.jstr (lit "Error processing query: " ++ emsg)),
           (lit "confidence", JVal.jnum 0),
           (lit "error", JVal.jstr emsg)]) := by
  intro jl q org emsg now txt he
  constructor
  · intro hp
    simp only [process_business_query, he, Bool.false_eq_true, if_false, hp]
  · intro v hp hv
    cases v with
    | jobj fields => exact absurd rfl (hv fields)
    | jnull => simp only [process_business_query, he, Bool.false_eq_true, if_false, hp]
    | jbool b => simp only [process_business_query, he, Bool.false_eq_true, if_false, hp]
    | jnum q2 => simp only [process_business_query, he, Bool.false_eq_true, if_false, hp]
    | jstr s => simp only [process_business_query, he, Bool.false_eq_true, if_false, hp]
    | jarr es => simp only [process_business_query, he, Bool.false_eq_true, if_false, hp]

/-- Claim C3, witness: the amended theorem's parse-failure clause applied to
the concrete non-JSON reply `hello`. -/
theorem C3_witness :
    dget (process_business_query (fun _ => ParseOutcome.perr) (lit "q") (lit "o")
        (lit "e") 0 (some (lit "hello"))) (lit "confidence")
      = some (JVal.jnum (7/10)) := by
  have h := (C3_amended (fun _ => ParseOutcome.perr) (lit "q") (lit "o") (lit "e") 0
    (lit "hello") rfl).1 rfl
  rw [h]
  rfl

/-! ### Claim C4 -/

/-- Claim C4, counterexample: a backend reply for `generate_business_insights`
that parses to the empty JSON mapping is returned as-is — no default is
injected for the absent required field `confidence` (the use case's required
field per the specification), because that operation has no validator at
all. -/
theorem C4_counterexample :
    jmem (generate_business_insights (fun _ => ParseOutcome.pok (JVal.jobj []))
        [] (lit "org") (some (lit "\x7b\x7d"))) (lit "confidence") = false := rfl

/-- Claim C4 as amended: only `process_business_query` injects defaults for
absent required fields — a missing `interpretation` becomes the literal
`Not provided` and a missing `confidence` becomes 0.5, and its validator
never overwrites a field already present in the parsed mapping;
`generate_business_insights` and `optimize_query_performance` return the
parsed mapping unchanged, injecting nothing. -/
theorem C4_amended : ∀ (parsed : Obj) (json_loads : Str → ParseOutcome) (ds : Obj)
    (org sql txt : Str),
    (dmem parsed (lit "interpretation") = false →
      dget (validateRequired parsed) (lit "interpretation")
        = some (JVal.jstr (lit "Not provided")))
    ∧ (dmem parsed (lit "confidence") = false →
      dget (validateRequired parsed) (lit "confidence") = some (JVal.jnum (1/2)))
    ∧ (∀ key, dmem parsed key = true →
        dget (validateRequired parsed) key = dget parsed key)
    ∧ (txt.isEmpty = false →
        json_loads (cleanResponse txt) = ParseOutcome.pok (JVal.jobj parsed) →
        generate_business_insights json_loads ds org (some txt) = JVal.jobj parsed
        ∧ optimize_query_performance json_loads sql (some txt) = JVal.jobj parsed) := by
  intro parsed jl ds org sql txt
  refine ⟨validateRequired_inject_interpretation parsed,
          validateRequired_inject_confidence parsed,
          fun key hk => validateRequired_present parsed key hk, ?_⟩
  intro he hp
  constructor
  · simp only [generate_business_insights, he, Bool.false_eq_true, if_false, hp]
  · simp only [optimize_query_performance, he, Bool.false_eq_true, if_false, hp]

/-- Claim C4, witness: the amended theorem applied to the empty parsed
mapping — both defaults are injected by `process_business_query`'s validator,
and `generate_business_insights` returns the parsed empty mapping unchanged
for the concrete reply consisting of an empty JSON object. -/
theorem C4_witness :
    dget (validateRequired []) (lit "interpretation") = some (JVal.jstr (lit "Not provided"))
    ∧ dget (validateRequired []) (lit "confidence") = some (JVal.jnum (1/2))
    ∧ generate_business_insights (fun _ => ParseOutcome.pok (JVal.jobj [])) []
        (lit "o") (some (lit "\x7b\x7d")) = JVal.jobj [] := by
  have h := C4_amended [] (fun _ => ParseOutcome.pok (JVal.jobj [])) [] (lit "o")
    (lit "s") (lit "\x7b\x7d")
  exact ⟨h.1 rfl, h.2.1 rfl, (h.2.2.2 rfl rfl).1⟩

/-! ### Claim C5 -/

/-- Claim C5, counterexample: on a non-JSON reply, the fallback of
`optimize_query_performance` has confidence 0.5, not the claimed 0.7. -/
theorem C5_counterexample :
    jget (optimize_query_performance (fun _ => ParseOutcome.perr)
        (lit "SELECT * FROM t") (some (lit "add an index"))) (lit "confidence")
      = some (JVal.jnum (1/2))
    ∧ ((1 : ℚ)/2 ≠ 7/10) := ⟨rfl, by norm_num⟩

/-- Claim C5 as amended: for every non-JSON backend reply text the fallback
path is a total function (it never raises); the returned confidence is
exactly 0.7 in `process_business_query` and `generate_business_insights` but
0.5 in `optimize_query_performance`; and in `process_business_query`, when
the reply text is longer than 500 characters, the fallback's interpretation
field is exactly the first 500 characters followed by the 3-character
ellipsis marker, of total length 503. -/
theorem C5_amended : ∀ (json_loads : Str → ParseOutcome) (q org emsg sql : Str)
    (ds : Obj) (now : ℚ) (txt : Str),
    txt.isEmpty = false →
    json_loads (cleanResponse txt) = ParseOutcome.perr →
    dget (process_business_query json_loads q org emsg now (some txt)) (lit "confidence")
        = some (JVal.jnum (7/10))
    ∧ jget (generate_business_insights json_loads ds org (some txt)) (lit "confidence")
        = some (JVal.jnum (7/10))
    ∧ jget (optimize_query_performance json_loads sql (some txt)) (lit "confidence")
        = some (JVal.jnum (1/2))
    ∧ (txt.length > 500 →
        dget (process_business_query json_loads q org emsg now (some txt))
            (lit "interpretation")
          = some (JVal.jstr (txt.take 500 ++ lit "..."))
        ∧ (txt.take 500 ++ lit "...").length = 503) := by
  intro jl q org emsg sql ds now txt he hp
  refine ⟨?_, ?_, ?_, ?_⟩
  · simp only [process_business_query, he, Bool.false_eq_true, if_false, hp]
    rfl
  · simp only [generate_business_insights, he, Bool.false_eq_true, if_false, hp]
    rfl
  · simp only [optimize_query_performance, he, Bool.false_eq_true, if_false, hp]
    rfl
  · intro hl
    constructor
    · simp only [process_business_query, he, Bool.false_eq_true, if_false, hp]
      simp [dget, hl]
    · rw [List.length_append, List.length_take, Nat.min_eq_left (le_of_lt hl)]
      rfl

/-- Claim C5, witness: the amended theorem applied to a concrete 501-character
non-JSON reply: the query-processing fallback confidence is 0.7 and the
truncated interpretation has length 503. -/
theorem C5_witness :
    dget (process_business_query (fun _ => ParseOutcome.perr) (lit "q") (lit "o")
        (lit "e") 0 (some (List.replicate 501 'a'))) (lit "confidence")
      = some (JVal.jnum (7/10))
    ∧ (List.take 500 (List.replicate 501 'a') ++ lit "...").length = 503 := by
  have h := C5_amended (fun _ => ParseOutcome.perr) (lit "q") (lit "o") (lit "e")
    (lit "s") [] 0 (List.replicate 501 'a')
    (by rw [List.replicate_succ]; rfl)
    rfl
  exact ⟨h.1, (h.2.2.2 (by rw [List.length_replicate]; norm_num)).2⟩

/-! ### Claim C6 -/

/-- Claim C6, counterexample: extraction is not idempotent.  On the raw text
composed of a leading fence, the inner text (which itself begins with a fence
marker and ends with one) and a trailing fence, one application of the
extraction yields a text that still carries fence markers, and a second
application strips them again. -/
theorem C6_counterexample :
    cleanResponse (cleanResponse (lit "```json```json abc``````"))
      ≠ cleanResponse (lit "```json```json abc``````") := by decide

/-- Claim C6 as amended: for every raw text consisting of a leading fence
marker, inner content, and a trailing fence marker, extraction removes
exactly the fence markers and returns the inner content unchanged up to
surrounding-whitespace trimming; and extraction leaves unchanged any
already-trimmed text that does not itself begin with the leading fence marker
or end with the trailing one (it is not idempotent in general, because the
stripped output may again carry fence markers). -/
theorem C6_amended :
    (∀ inner : Str,
        cleanResponse (lit "```json" ++ (inner ++ lit "```")) = pyStrip inner)
    ∧ (∀ xs : Str, pyStrip xs = xs →
        leadsWith (lit "```json") xs = false →
        trailsWith (lit "```") xs = false →
        cleanResponse xs = xs) :=
  ⟨cleanResponse_fenced, cleanResponse_noFence⟩

/-- Claim C6, witness: the amended theorem applied to the concrete fenced
text with inner content `[1, 2]` and to the concrete fence-free text
`plain`. -/
theorem C6_witness :
    cleanResponse (lit "```json[1, 2]```") = lit "[1, 2]"
    ∧ cleanResponse (lit "plain") = lit "plain" := by
  constructor
  · have h := C6_amended.1 (lit "[1, 2]")
    rw [show lit "```json" ++ (lit "[1, 2]" ++ lit "```") = lit "```json[1, 2]```" from rfl] at h
    rw [h]
    decide
  · exact C6_amended.2 (lit "plain") (by decide) (by decide) (by decide)

/-! ### Claim C7 -/

/-- Claim C7, counterexample: on the text-fallback path,
`process_business_query`'s output carries no `processed_at` timestamp at all,
so the metadata enrichment is not applied uniformly to both paths as the
claim states. -/
theorem C7_counterexample :
    dmem (process_business_query (fun _ => ParseOutcome.perr) (lit "q2") (lit "org2")
        (lit "e2") 5 (some (lit "plain text"))) (lit "processed_at") = false := rfl

/-- Claim C7 as amended: on the query-interpretation operation, both the
validated-JSON path and the text-fallback path attach the caller's
`original_query` and `organization_id`; but the `processed_at` timestamp is
attached only on the validated-JSON path — the fallback path instead carries
a `note` field and no timestamp. -/
theorem C7_amended : ∀ (json_loads : Str → ParseOutcome) (q org emsg : Str)
    (now : ℚ) (txt : Str) (parsed : Obj),
    txt.isEmpty = false →
    (json_loads (cleanResponse txt) = ParseOutcome.pok (JVal.jobj parsed) →
      dget (process_business_query json_loads q org emsg now (some txt))
          (lit "original_query") = some (JVal.jstr q)
      ∧ dget (process_business_query json_loads q org emsg now (some txt))
          (lit "organization_id") = some (JVal.jstr org)
      ∧ dget (process_business_query json_loads q org emsg now (some txt))
          (lit "processed_at") = some (JVal.jnum now))
    ∧ (json_loads (cleanResponse txt) = ParseOutcome.perr →
      dget (process_business_query json_loads q org emsg now (some txt))
          (lit "original_query") = some (JVal.jstr q)
      ∧ dget (process_business_query json_loads q org emsg now (some txt))
          (lit "organization_id") = some (JVal.jstr org)
      ∧ dmem (process_business_query json_loads q org emsg now (some txt))
          (lit "processed_at") = false
      ∧ dmem (process_business_query json_loads q org emsg now (some txt))
          (lit "note") = true) := by
  intro jl q org emsg now txt parsed he
  constructor
  · intro hp
    simp only [process_business_query, he, Bool.false_eq_true, if_false, hp]
    refine ⟨?_, ?_, ?_⟩
    · rw [dget_dset_ne _ _ _ _ (by decide : lit "original_query" ≠ lit "processed_at"),
        dget_dset_ne _ _ _ _ (by decide : lit "original_query" ≠ lit "organization_id")]
      exact dget_dset_self _ _ _
    · rw [dget_dset_ne _ _ _ _ (by decide : lit "organization_id" ≠ lit "processed_at")]
      exact dget_dset_self _ _ _
    · exact dget_dset_self _ _ _
  · intro hp
    simp only [process_business_query, he, Bool.false_eq_true, if_false, hp]
    exact ⟨rfl, rfl, rfl, rfl⟩

/-- Claim C7, witness: the amended theorem applied once on the validated-JSON
path (reply parsing to the empty mapping, timestamp 2 attached) and once on
the fallback path (plain-text reply, caller's query attached). -/
theorem C7_witness :
    dget (process_business_query (fun _ => ParseOutcome.pok (JVal.jobj [])) (lit "q")
        (lit "o") (lit "e") 2 (some (lit "\x7b\x7d"))) (lit "processed_at")
      = some (JVal.jnum 2)
    ∧ dget (process_business_query (fun _ => ParseOutcome.perr) (lit "q") (lit "o")
        (lit "e") 2 (some (lit "text"))) (lit "original_query")
      = some (JVal.jstr (lit "q")) := by
  constructor
  · exact ((C7_amended (fun _ => ParseOutcome.pok (JVal.jobj [])) (lit "q") (lit "o")
      (lit "e") 2 (lit "\x7b\x7d") [] rfl).1 rfl).2.2
  · exact ((C7_amended (fun _ => ParseOutcome.perr) (lit "q") (lit "o")
      (lit "e") 2 (lit "text") [] rfl).2 rfl).1

/-! ### Claim C8 -/

/-- Claim C8, counterexample: the parsed backend reply itself contains an
`original_query` field with the model's value, yet the value returned to the
caller is the caller's query — the metadata enrichment overwrote the model's
field, contradicting the claim that it never does. -/
theorem C8_counterexample :
    dget (process_business_query
        (fun _ => ParseOutcome.pok
          (JVal.jobj [(lit "original_query", JVal.jstr (lit "model value"))]))
        (lit "caller query") (lit "org") (lit "e") 3 (some (lit "x")))
        (lit "original_query") = some (JVal.jstr (lit "caller query"))
    ∧ lit "caller query" ≠ lit "model value" := ⟨rfl, by decide⟩

/-- Claim C8 as amended: the metadata enrichment of `process_business_query`
unconditionally assigns `original_query`, `organization_id` and
`processed_at`, overwriting any same-named field present in the parsed reply:
whatever the parsed mapping contains, the returned values for these three
keys are always the caller's query, the caller's organization id and the
pipeline timestamp. -/
theorem C8_amended : ∀ (json_loads : Str → ParseOutcome) (q org emsg : Str)
    (now : ℚ) (txt : Str) (parsed : Obj),
    txt.isEmpty = false →
    json_loads (cleanResponse txt) = ParseOutcome.pok (JVal.jobj parsed) →
    dget (process_business_query json_loads q org emsg now (some txt))
        (lit "original_query") = some (JVal.jstr q)
    ∧ dget (process_business_query json_loads q org emsg now (some txt))
        (lit "organization_id") = some (JVal.jstr org)
    ∧ dget (process_business_query json_loads q org emsg now (some txt))
        (lit "processed_at") = some (JVal.jnum now) := by
  intro jl q org emsg now txt parsed he hp
  simp only [process_business_query, he, Bool.false_eq_true, if_false, hp]
  refine ⟨?_, ?_, ?_⟩
  · rw [dget_dset_ne _ _ _ _ (by decide : lit "original_query" ≠ lit "processed_at"),
      dget_dset_ne _ _ _ _ (by decide : lit "original_query" ≠ lit "organization_id")]
    exact dget_dset_self _ _ _
  · rw [dget_dset_ne _ _ _ _ (by decide : lit "organization_id" ≠ lit "processed_at")]
    exact dget_dset_self _ _ _
  · exact dget_dset_self _ _ _

/-- Claim C8, witness: the amended theorem applied to a parsed reply that
already carries an `original_query` field; the caller's query wins. -/
theorem C8_witness :
    dget (process_business_query
        (fun _ => ParseOutcome.pok
          (JVal.jobj [(lit "original_query", JVal.jstr (lit "from model"))]))
        (lit "q8") (lit "o8") (lit "e") 4 (some (lit "y")))
        (lit "original_query") = some (JVal.jstr (lit "q8")) :=
  (C8_amended (fun _ => ParseOutcome.pok
      (JVal.jobj [(lit "original_query", JVal.jstr (lit "from model"))]))
    (lit "q8") (lit "o8") (lit "e") 4 (lit "y")
    [(lit "original_query", JVal.jstr (lit "from model"))] rfl rfl).1

/-! ### Claim C9 -/

/-- Claim C9 (confirmed): on `optimize_query_performance`, for every non-JSON
backend reply text, the fallback object's `optimized_query` field equals the
caller's `sql_query` input character for character, and its `suggestions`
field is the single-element list containing the whole raw reply text. -/
theorem C9_theorem : ∀ (json_loads : Str → ParseOutcome) (sql txt : Str),
    txt.isEmpty = false →
    json_loads (cleanResponse txt) = ParseOutcome.perr →
    jget (optimize_query_performance json_loads sql (some txt)) (lit "optimized_query")
        = some (JVal.jstr sql)
    ∧ jget (optimize_query_performance json_loads sql (some txt)) (lit "suggestions")
        = some (JVal.jarr [JVal.jstr txt]) := by
  intro jl sql txt he hp
  simp only [optimize_query_performance, he, Bool.false_eq_true, if_false, hp]
  exact ⟨rfl, rfl⟩

/-- Claim C9, witness: the theorem applied at a concrete SQL query and a
concrete non-JSON reply. -/
theorem C9_witness :
    jget (optimize_query_performance (fun _ => ParseOutcome.perr) (lit "SELECT 1")
        (some (lit "no changes needed"))) (lit "optimized_query")
      = some (JVal.jstr (lit "SELECT 1")) :=
  (C9_theorem (fun _ => ParseOutcome.perr) (lit "SELECT 1") (lit "no changes needed")
    rfl rfl).1

/-! ### Claim C10 -/

/-- Claim C10 (confirmed): the output of `generate_business_insights` is
independent of the `organization_id` argument — for any fixed data summary,
parser behavior and backend reply, two runs with any two organization ids
return equal objects. -/
theorem C10_theorem : ∀ (json_loads : Str → ParseOutcome) (ds : Obj)
    (org1 org2 : Str) (r : Option Str),
    generate_business_insights json_loads ds org1 r
      = generate_business_insights json_loads ds org2 r := by
  intro jl ds org1 org2 r
  rfl
